import Mathlib

/-!
Verification development for the workflow graph-execution engine
(`app/core/graph_engine.py`, `app/core/tool_registry.py`, `app/core/models.py`).

The Python code is shallowly embedded: Pydantic models become structures,
`Dict[str, Any]` payloads become association lists over a JSON-like value
type, and the `while` loop of `GraphEngine.execute` becomes a fuel-indexed
step/loop pair.  the Python in-place mutability of the payload dict passed to a
tool is made explicit: a tool is modelled by the value it leaves in the dict
object it received (`effect`) together with its return-or-raise behaviour
(`ret`); `copy.deepcopy` therefore corresponds to taking the pre-call value.
the Python `eval` used by `_evaluate_condition` is modelled as an oracle
parameter of the engine mapping a condition string and a payload to a result
value or the text of a raised exception.
-/

namespace WorkflowEngine

/-- JSON-like payload values stored in a `Dict[str, Any]`. -/
inductive Val where
  | vNull : Val
  | vBool : Bool → Val
  | vInt : Int → Val
  | vStr : String → Val
  deriving DecidableEq, Repr

/-- A Python `Dict[str, Any]` payload, as an association list. -/
abbrev St := List (String × Val)

/-- Python truthiness of a value, as used by `bool(result)` in
`_evaluate_condition`. -/
def Val.truthy : Val → Bool
  | .vNull => false
  | .vBool b => b
  | .vInt n => n ≠ 0
  | .vStr s => s ≠ ""

/-- The single-quote character, used verbatim in the source error
message strings. -/
def sq : String := String.singleton (Char.ofNat 39)

/-- Python dict lookup on an association list (first binding wins; the
insert of this embedding keeps keys unique, matching dict semantics). -/
def dictGet {α : Type} (m : List (String × α)) (k : String) : Option α :=
  match m with
  | [] => none
  | (k2, v) :: rest => if k2 = k then some v else dictGet rest k

/-- Python dict insert `m[k] = v`: replaces an existing binding in place,
otherwise appends at the end (insertion order preserved). -/
def dictInsert {α : Type} (m : List (String × α)) (k : String) (v : α) :
    List (String × α) :=
  match m with
  | [] => [(k, v)]
  | (k2, v2) :: rest =>
    if k2 = k then (k, v) :: rest else (k2, v2) :: dictInsert rest k v

/-- `NodeType` enum from `app/core/models.py`. -/
inductive NodeType where
  | FUNCTION : NodeType
  | CONDITIONAL : NodeType
  | START : NodeType
  | END : NodeType
  deriving DecidableEq, Repr

/-- `RunStatus` enum from `app/core/models.py`. -/
inductive RunStatus where
  | PENDING : RunStatus
  | RUNNING : RunStatus
  | COMPLETED : RunStatus
  | FAILED : RunStatus
  deriving DecidableEq, Repr

/-- `NodeDefinition` model (the opaque `config` mapping is not read by the
engine and is omitted). -/
structure NodeDefinition where
  name : String
  node_type : NodeType
  tool_name : Option String := none
  deriving DecidableEq, Repr

/-- `EdgeDefinition` model. -/
structure EdgeDefinition where
  from_node : String
  to_node : String
  condition : Option String := none
  label : Option String := none
  deriving DecidableEq, Repr

/-- `GraphDefinition` model (`created_at` and `description` are never read
by the engine and are omitted). -/
structure GraphDefinition where
  graph_id : String
  name : String
  nodes : List NodeDefinition
  edges : List EdgeDefinition
  entry_point : String
  deriving DecidableEq, Repr

/-- `WorkflowState` model: payload `data` plus engine `metadata`. -/
structure WorkflowState where
  data : St
  metadata : List (String × Val)
  deriving DecidableEq, Repr

/-- `ExecutionLog` model.  The wall-clock `timestamp` and
`execution_time_ms` fields are real-time measurements and are omitted. -/
structure ExecutionLog where
  node_name : String
  input_state : St
  output_state : St
  success : Bool := true
  error : Option String := none
  deriving DecidableEq, Repr

/-- `Run` model.  `started_at` / `completed_at` are wall-clock stamps; the
embedding records only whether `completed_at` has been set. -/
structure Run where
  graph_id : String
  status : RunStatus := RunStatus.PENDING
  current_node : Option String := none
  current_state : WorkflowState
  execution_logs : List ExecutionLog := []
  completed_at : Bool := false
  error : Option String := none
  iteration_count : Nat := 0
  max_iterations : Nat := 10
  deriving DecidableEq, Repr

/-- A Python tool callable.  `effect st` is the value the payload dict
object passed to the tool holds once the call returns or raises (in-place
mutation); `ret st` is the returned payload, or `.error e` when the call
raises an exception whose text is `e`. -/
structure Tool where
  effect : St → St
  ret : St → Except String St

/-- The graph engine: its tool registry table, plus the oracle modelling
the Python `eval` as invoked by `_evaluate_condition` (result value, or, for
any parse/lookup/runtime failure, the text of the raised exception). -/
structure GraphEngine where
  tool_registry : List (String × Tool)
  pyEval : String → St → Except String Val

/-- `GraphEngine._evaluate_condition`: evaluate the expression via `eval`
and take Python truthiness; any exception yields `false`. -/
def GraphEngine.evaluateCondition (engine : GraphEngine) (condition : String)
    (state : St) : Bool :=
  match engine.pyEval condition state with
  | .ok v => v.truthy
  | .error _ => false

/-- Python truthiness of the `Optional[str]` condition field, as used by the
partition `[e for e in outgoing_edges if e.condition]` in `_get_next_node`
(`None` and the empty string are falsy). -/
def EdgeDefinition.hasCondition (e : EdgeDefinition) : Bool :=
  match e.condition with
  | none => false
  | some s => s ≠ ""

/-- `GraphEngine._build_adjacency_map`, one edge at a time. -/
def addEdge (m : List (String × List EdgeDefinition)) (e : EdgeDefinition) :
    List (String × List EdgeDefinition) :=
  match m with
  | [] => [(e.from_node, [e])]
  | (k, es) :: rest =>
    if k = e.from_node then (k, es ++ [e]) :: rest else (k, es) :: addEdge rest e

/-- `GraphEngine._build_adjacency_map`: node name to ordered outgoing
edges, preserving edge supply order. -/
def buildAdjacencyMap (edges : List EdgeDefinition) :
    List (String × List EdgeDefinition) :=
  edges.foldl addEdge []

/-- `GraphEngine._get_next_node`: first truthy conditional edge wins, else
the first unconditional edge, else terminal. -/
def GraphEngine.getNextNode (engine : GraphEngine) (currentNodeName : String)
    (adjacencyMap : List (String × List EdgeDefinition)) (state : St) :
    Option String :=
  let outgoingEdges := (dictGet adjacencyMap currentNodeName).getD []
  if outgoingEdges.isEmpty then
    none
  else
    let conditionalEdges := outgoingEdges.filter (fun e => e.hasCondition)
    let unconditionalEdges := outgoingEdges.filter (fun e => !e.hasCondition)
    match conditionalEdges.find?
        (fun e => engine.evaluateCondition (e.condition.getD "") state) with
    | some e => some e.to_node
    | none =>
      match unconditionalEdges with
      | e :: _ => some e.to_node
      | [] => none

/-- `GraphEngine._execute_function_node`.  Returns the value left in the
payload object handed to the tool together with the tool return value or the
text of the raised exception.  The `tool_name` guard is Python truthiness, so an
empty-string name also fails. -/
def GraphEngine.executeFunctionNode (engine : GraphEngine)
    (node : NodeDefinition) (state : St) : St × Except String St :=
  match node.tool_name with
  | none =>
    (state, .error ("Function node " ++ sq ++ node.name ++ sq ++ " has no tool_name"))
  | some tname =>
    if tname = "" then
      (state, .error ("Function node " ++ sq ++ node.name ++ sq ++ " has no tool_name"))
    else
      match dictGet engine.tool_registry tname with
      | none =>
        (state, .error ("Tool " ++ sq ++ tname ++ sq ++
          " not found in registry. Available tools: " ++
          toString (engine.tool_registry.map Prod.fst)))
      | some tool => (tool.effect state, tool.ret state)

/-- `GraphEngine._execute_node`: snapshot a deep copy of the payload, run
the node, and emit the log.  Also returns the value held by the payload
object of `state` after the call (relevant when a tool mutated it in
place). -/
def GraphEngine.executeNode (engine : GraphEngine) (node : NodeDefinition)
    (state : WorkflowState) : ExecutionLog × St :=
  let input_state := state.data
  match node.node_type with
  | NodeType.FUNCTION =>
    match engine.executeFunctionNode node state.data with
    | (postData, .ok output_state) =>
      ({ node_name := node.name, input_state := input_state,
         output_state := output_state, success := true, error := none }, postData)
    | (postData, .error e) =>
      ({ node_name := node.name, input_state := input_state,
         output_state := input_state, success := false, error := some e }, postData)
  | _ =>
    ({ node_name := node.name, input_state := input_state,
       output_state := state.data, success := true, error := none }, state.data)

/-- The error message raised at the loop head when the iteration cap is
reached. -/
def capMessage (maxIterations : Nat) : String :=
  "Maximum iterations (" ++ toString maxIterations ++
    ") exceeded. Possible infinite loop detected."

/-- The error message raised when the current node name is absent from the
node map. -/
def nodeNotFoundMessage (name : String) : String :=
  "Node " ++ sq ++ name ++ sq ++ " not found in graph"

/-- The `except Exception` handler of `execute`: mark the run FAILED with
the exception text and stamp `completed_at`. -/
def markFailed (run : Run) (e : String) : Run :=
  { run with status := RunStatus.FAILED, error := some e, completed_at := true }

/-- The post-loop epilogue of `execute`: mark the run COMPLETED and stamp
`completed_at` (reached after every `break`, including the node-failure
one). -/
def markCompleted (run : Run) : Run :=
  { run with status := RunStatus.COMPLETED, completed_at := true }

/-- `if next_node and next_node in visited_nodes`: the next node name is
truthy and already visited, which triggers `iteration_count += 1`. -/
def nextTriggersIteration (next : Option String) (visited : List String) : Bool :=
  match next with
  | none => false
  | some s => (s ≠ "" : Bool) && visited.contains s

/-- Outcome of one pass through the body of the `while` loop of
`execute`: either the loop is over (after the epilogue or the exception
handler ran) or it continues with a next node, visited set and run. -/
inductive StepResult where
  | done : Run → StepResult
  | next : Option String → List String → Run → StepResult
  deriving Repr

/-- The run carried by a step outcome. -/
def StepResult.run : StepResult → Run
  | .done r => r
  | .next _ _ r => r

/-- One pass through the body of the `while` loop of `execute`, for a
truthy current node name: iteration-cap check, node-map lookup, node
execution and log append, the failure branch (whose `break` falls through
to the COMPLETED epilogue), state update, visited tracking, successor
selection and loop accounting. -/
def GraphEngine.executeStep (engine : GraphEngine)
    (nodeMap : List (String × NodeDefinition))
    (adjacencyMap : List (String × List EdgeDefinition))
    (maxIterations : Nat) (name : String) (visited : List String)
    (run : Run) : StepResult :=
  if maxIterations ≤ run.iteration_count then
    StepResult.done (markFailed run (capMessage maxIterations))
  else
    match dictGet nodeMap name with
    | none => StepResult.done (markFailed run (nodeNotFoundMessage name))
    | some node =>
      let run1 : Run := { run with current_node := some name }
      let log := (engine.executeNode node run1.current_state).1
      let postData := (engine.executeNode node run1.current_state).2
      let run2 : Run :=
        { run1 with execution_logs := run1.execution_logs ++ [log] }
      if log.success then
        let run3 : Run :=
          { run2 with current_state :=
              { data := log.output_state,
                metadata := run2.current_state.metadata } }
        let visited2 := if name ∈ visited then visited else visited ++ [name]
        let next :=
          engine.getNextNode name adjacencyMap run3.current_state.data
        let run4 : Run :=
          if nextTriggersIteration next visited2 then
            { run3 with iteration_count := run3.iteration_count + 1 }
          else run3
        StepResult.next next visited2 run4
      else
        StepResult.done (markCompleted
          { run2 with
            status := RunStatus.FAILED,
            error := log.error,
            completed_at := true,
            current_state := { run2.current_state with data := postData } })

/-- The `while current_node_name:` loop of `execute`, fuel-indexed.  A
falsy current node name (absent or empty) exits the loop into the
COMPLETED epilogue.  The fuel chosen by `execute` strictly exceeds the
number of loop passes any run can make (each pass either executes a fresh
node, re-enters a visited one — bounded by the iteration cap — or
halts). -/
def GraphEngine.executeLoop (engine : GraphEngine)
    (nodeMap : List (String × NodeDefinition))
    (adjacencyMap : List (String × List EdgeDefinition))
    (maxIterations : Nat) : Nat → Option String → List String → Run → Run
  | 0, _, _, run => run
  | fuel + 1, currentNodeName, visited, run =>
    match currentNodeName with
    | none => markCompleted run
    | some name =>
      if name = "" then markCompleted run
      else
        match engine.executeStep nodeMap adjacencyMap maxIterations name visited run with
        | .done r => r
        | .next c v r => engine.executeLoop nodeMap adjacencyMap maxIterations fuel c v r

/-- `GraphEngine.execute`: initialise the run, build the adjacency and node
maps (dict comprehension: later duplicate names win), and walk the graph
from the entry point. -/
def GraphEngine.execute (engine : GraphEngine) (graph : GraphDefinition)
    (initialState : St) (maxIterations : Nat) : Run :=
  let run : Run :=
    { graph_id := graph.graph_id, status := RunStatus.RUNNING,
      current_node := some graph.entry_point,
      current_state :=
        { data := initialState,
          metadata := [("graph_name", Val.vStr graph.name)] },
      execution_logs := [], completed_at := false, error := none,
      iteration_count := 0, max_iterations := maxIterations }
  let adjacencyMap := buildAdjacencyMap graph.edges
  let nodeMap := graph.nodes.foldl (fun m n => dictInsert m n.name n) []
  engine.executeLoop nodeMap adjacencyMap maxIterations
    (graph.nodes.length + maxIterations + 2) (some graph.entry_point) [] run

/-- A Python object offered to the tool registry: whether `callable(func)`
holds, plus an identity so that distinct objects are distinguishable. -/
structure PyFunc where
  callable : Bool
  fid : Nat
  deriving DecidableEq, Repr

/-- `ToolRegistry.register` from `app/core/tool_registry.py`: reject a
duplicate name unless `override`, reject a non-callable, otherwise store
the binding. -/
def ToolRegistry.register (tools : List (String × PyFunc)) (name : String)
    (func : PyFunc) (override : Bool) : Except String (List (String × PyFunc)) :=
  if (dictGet tools name).isSome && !override then
    .error ("Tool " ++ sq ++ name ++ sq ++
      " already registered. Use override=True to replace it.")
  else if !func.callable then
    .error ("Tool " ++ sq ++ name ++ sq ++ " must be callable")
  else
    .ok (dictInsert tools name func)

/-- `ToolRegistry.get`: return the binding or raise a KeyError whose text
mentions that the tool was not found. -/
def ToolRegistry.get (tools : List (String × PyFunc)) (name : String) :
    Except String PyFunc :=
  match dictGet tools name with
  | some f => .ok f
  | none =>
    .error ("Tool " ++ sq ++ name ++ sq ++ " not found. Available tools: " ++
      toString (tools.map Prod.fst))

/-- Successor selection as worded by the specification: partition the
ordered outgoing edges into conditional and unconditional edges preserving
order, return the target of the first conditional edge whose condition
evaluates truthy, else the target of the first unconditional edge, else
null. -/
def getNextNodeSpec (engine : GraphEngine) (outgoingEdges : List EdgeDefinition)
    (state : St) : Option String :=
  let conditionalEdges := outgoingEdges.filter (fun e => e.hasCondition)
  let unconditionalEdges := outgoingEdges.filter (fun e => !e.hasCondition)
  match conditionalEdges.find?
      (fun e => engine.evaluateCondition (e.condition.getD "") state) with
  | some e => some e.to_node
  | none =>
    match unconditionalEdges with
    | e :: _ => some e.to_node
    | [] => none

/-- The identity tool used by the concrete test scenarios: returns the
payload unchanged and does not mutate it. -/
def identityTool : Tool := { effect := id, ret := fun s => .ok s }

/-- A tool that raises without mutating the payload. -/
def c1Tool : Tool := { effect := id, ret := fun _ => .error "boom" }

/-- Engine for the C1 scenario. -/
def c1Engine : GraphEngine :=
  { tool_registry := [("boom", c1Tool)], pyEval := fun _ _ => .error "NameError" }

/-- Graph for the C1 scenario: a single FUNCTION node whose tool raises. -/
def c1Graph : GraphDefinition :=
  { graph_id := "g1", name := "G1",
    nodes := [{ name := "A", node_type := .FUNCTION, tool_name := some "boom" }],
    edges := [], entry_point := "A" }

/-- Claim C1: the specification says a run with a failing log ends FAILED,
and that a COMPLETED run has no failing log.  The code violates this: after
the failure branch sets FAILED and breaks, the post-loop epilogue
unconditionally overwrites the status with COMPLETED, so at the failing
input (one FUNCTION node whose tool raises) the returned run carries the
failing log, its error, and a stamped completed_at, yet reports status
COMPLETED. -/
theorem c1_node_failure_status_overwritten :
    (c1Engine.execute c1Graph [] 10).status = RunStatus.COMPLETED ∧
    (c1Engine.execute c1Graph [] 10).error = some "boom" ∧
    (c1Engine.execute c1Graph [] 10).completed_at = true ∧
    (c1Engine.execute c1Graph [] 10).execution_logs =
      [{ node_name := "A", input_state := [], output_state := [],
         success := false, error := some "boom" }] := by
  decide

/-- Engine for the C2 scenario: identity tools, and an eval oracle on which
the literal condition string True evaluates to the Python object True. -/
def c2Engine : GraphEngine :=
  { tool_registry := [("identity", identityTool)],
    pyEval := fun c _ =>
      if c = "True" then .ok (.vBool true) else .error "NameError" }

/-- Graph for the C2 scenario: A→B unconditional, B→A guarded by the
condition True. -/
def c2Graph : GraphDefinition :=
  { graph_id := "g2", name := "G2",
    nodes := [{ name := "A", node_type := .FUNCTION, tool_name := some "identity" },
              { name := "B", node_type := .FUNCTION, tool_name := some "identity" }],
    edges := [{ from_node := "A", to_node := "B" },
              { from_node := "B", to_node := "A", condition := some "True" }],
    entry_point := "A" }

/-- Claim C2 counterexample: the claim predicts exactly 7 execution logs
for the loop-with-cap scenario; the code produces 4 (A, B, A, B: the
transition into an already visited node increments the counter for the B
revisits as well, so the cap of 3 is reached after four node
executions). -/
theorem c2_logs_are_not_seven :
    (c2Engine.execute c2Graph [] 3).execution_logs.length ≠ 7 := by
  decide

/-- Claim C2 as amended: the loop-with-cap scenario fails with the
iteration-cap message, iterations_completed = 3, and exactly 4 execution
logs (nodes A, B, A, B in order). -/
theorem c2_loop_with_cap_amended :
    (c2Engine.execute c2Graph [] 3).status = RunStatus.FAILED ∧
    (c2Engine.execute c2Graph [] 3).error =
      some "Maximum iterations (3) exceeded. Possible infinite loop detected." ∧
    (∃ pre post : String,
      "Maximum iterations (3) exceeded. Possible infinite loop detected."
        = pre ++ "iteration" ++ post) ∧
    (c2Engine.execute c2Graph [] 3).iteration_count = 3 ∧
    (c2Engine.execute c2Graph [] 3).execution_logs.map ExecutionLog.node_name
      = ["A", "B", "A", "B"] := by
  refine ⟨by decide, by decide, ⟨"Maximum ", "s (3) exceeded. Possible infinite loop detected.", by decide⟩, by decide, by decide⟩

/-- Engine for the C4 concrete scenarios. -/
def c4Engine : GraphEngine :=
  { tool_registry := [("identity", identityTool)],
    pyEval := fun c _ =>
      if c = "state[k] == 1" then .ok (.vBool false) else .error "KeyError" }

/-- Graph for the C4 terminal scenario: only conditional edges leave A and
none of them matches, so A is terminal and the run completes. -/
def c4Graph : GraphDefinition :=
  { graph_id := "g4", name := "G4",
    nodes := [{ name := "A", node_type := .FUNCTION, tool_name := some "identity" },
              { name := "B", node_type := .FUNCTION, tool_name := some "identity" }],
    edges := [{ from_node := "A", to_node := "B", condition := some "state[k] == 1" }],
    entry_point := "A" }

/-- Outgoing edges for the C4 fallback scenario: a non-matching conditional
edge declared first, an unconditional edge declared second. -/
def c4FallbackEdges : List EdgeDefinition :=
  [{ from_node := "A", to_node := "B", condition := some "state[k] == 1" },
   { from_node := "A", to_node := "C" }]

/-- Claim C4: successor selection returns the target of the first
conditional edge (in supplied order) whose condition evaluates truthy; if
none matched and an unconditional edge exists, the target of the first
unconditional edge regardless of declared position; otherwise null, and in
that case the run completes without error.  Stated as: `_get_next_node`
agrees everywhere with the selection rule worded by the specification,
the unconditional fallback is taken in the concrete scenario where it is
declared second, and the no-match no-fallback run completes with no
error. -/
theorem c4_successor_selection :
    (∀ (engine : GraphEngine) (currentNodeName : String)
        (adjacencyMap : List (String × List EdgeDefinition)) (state : St),
        engine.getNextNode currentNodeName adjacencyMap state =
          getNextNodeSpec engine ((dictGet adjacencyMap currentNodeName).getD []) state) ∧
    getNextNodeSpec c4Engine c4FallbackEdges [] = some "C" ∧
    (c4Engine.execute c4Graph [] 10).status = RunStatus.COMPLETED ∧
    (c4Engine.execute c4Graph [] 10).error = none := by
  refine ⟨?_, by decide, by decide, by decide⟩
  intro engine currentNodeName adjacencyMap state
  unfold GraphEngine.getNextNode getNextNodeSpec
  cases h : (dictGet adjacencyMap currentNodeName).getD [] with
  | nil => simp
  | cons e es => simp

/-- Engine for the C7 scenario: every condition evaluation raises. -/
def c7Engine : GraphEngine :=
  { tool_registry := [("identity", identityTool)],
    pyEval := fun _ _ => .error "KeyError" }

/-- Graph for the C7 scenario: one FUNCTION node with a single outgoing
edge whose condition always fails to evaluate. -/
def c7Graph : GraphDefinition :=
  { graph_id := "g7", name := "G7",
    nodes := [{ name := "A", node_type := .FUNCTION, tool_name := some "identity" },
              { name := "B", node_type := .FUNCTION, tool_name := some "identity" }],
    edges := [{ from_node := "A", to_node := "B",
                condition := some "state[missing][deep]" }],
    entry_point := "A" }

/-- Claim C7: condition evaluation never raises: whenever the underlying
eval raises, `_evaluate_condition` returns false, the edge is not taken,
and nothing is surfaced to the run — in the concrete scenario whose only
anomaly is a failing condition the run still completes with a null
error. -/
theorem c7_condition_failure_not_surfaced :
    (∀ (engine : GraphEngine) (condition : String) (state : St) (e : String),
        engine.pyEval condition state = Except.error e →
        engine.evaluateCondition condition state = false) ∧
    (c7Engine.execute c7Graph [] 10).status = RunStatus.COMPLETED ∧
    (c7Engine.execute c7Graph [] 10).error = none ∧
    (c7Engine.execute c7Graph [] 10).execution_logs.map ExecutionLog.node_name
      = ["A"] := by
  refine ⟨?_, by decide, by decide, by decide⟩
  intro engine condition state e h
  unfold GraphEngine.evaluateCondition
  rw [h]

/-- Claim C7 witness: the universal part applied at a concrete failing
condition. -/
theorem c7_condition_failure_not_surfaced_witness :
    c7Engine.evaluateCondition "state[missing][deep]" [] = false :=
  c7_condition_failure_not_surfaced.1 c7Engine "state[missing][deep]" [] "KeyError" rfl

/-- A tool that first mutates the payload dict in place and then returns a
fresh payload. -/
def c10ReturningTool : Tool :=
  { effect := fun _ => [("k", Val.vInt 99)], ret := fun _ => .ok [("r", Val.vInt 7)] }

/-- A tool that first mutates the payload dict in place and then raises. -/
def c10RaisingTool : Tool :=
  { effect := fun _ => [("k", Val.vInt 99)], ret := fun _ => .error "boom" }

/-- Engine holding the two mutating tools of the C10 scenario. -/
def c10Engine : GraphEngine :=
  { tool_registry := [("mutret", c10ReturningTool), ("mutraise", c10RaisingTool)],
    pyEval := fun _ _ => .error "NameError" }

/-- FUNCTION node dispatching the mutating-and-returning tool. -/
def c10ReturningNode : NodeDefinition :=
  { name := "M", node_type := .FUNCTION, tool_name := some "mutret" }

/-- FUNCTION node dispatching the mutating-and-raising tool. -/
def c10RaisingNode : NodeDefinition :=
  { name := "N", node_type := .FUNCTION, tool_name := some "mutraise" }

/-- Claim C10: the recorded `input_state` of every node execution is the
deep-copied payload value taken before dispatch, for every node and
payload; in particular, for tools that mutate the payload in place and then
return or raise, the log still records the dispatch-time value even though
the payload object was left mutated. -/
theorem c10_input_state_is_dispatch_snapshot :
    (∀ (engine : GraphEngine) (node : NodeDefinition) (state : WorkflowState),
        ((engine.executeNode node state).1).input_state = state.data) ∧
    ((c10Engine.executeNode c10ReturningNode
        { data := [("k", Val.vInt 1)], metadata := [] }).1).input_state
      = [("k", Val.vInt 1)] ∧
    (c10Engine.executeNode c10ReturningNode
        { data := [("k", Val.vInt 1)], metadata := [] }).2
      = [("k", Val.vInt 99)] ∧
    ((c10Engine.executeNode c10RaisingNode
        { data := [("k", Val.vInt 1)], metadata := [] }).1).input_state
      = [("k", Val.vInt 1)] ∧
    ((c10Engine.executeNode c10RaisingNode
        { data := [("k", Val.vInt 1)], metadata := [] }).1).output_state
      = [("k", Val.vInt 1)] ∧
    (c10Engine.executeNode c10RaisingNode
        { data := [("k", Val.vInt 1)], metadata := [] }).2
      = [("k", Val.vInt 99)] := by
  refine ⟨?_, by decide, by decide, by decide, by decide, by decide⟩
  intro engine node state
  unfold GraphEngine.executeNode
  cases node.node_type with
  | FUNCTION =>
    cases h : engine.executeFunctionNode node state.data with
    | mk post out => cases out <;> simp
  | CONDITIONAL => simp
  | START => simp
  | END => simp

/-- Inserting a binding makes it retrievable: dict lookup after dict
insert at the same key. -/
theorem dictGet_dictInsert_self {α : Type} (m : List (String × α)) (k : String)
    (v : α) : dictGet (dictInsert m k v) k = some v := by
  induction m with
  | nil => simp [dictInsert, dictGet]
  | cons p rest ih =>
    obtain ⟨k2, v2⟩ := p
    by_cases h : k2 = k
    · simp [dictInsert, dictGet, h]
    · simp [dictInsert, dictGet, h, ih]

/-- Claim C9: register fails on a duplicate name without override, fails on
a non-callable, and otherwise inserts the binding so that get returns it;
get of an absent name fails with a message mentioning not found. -/
theorem c9_registry_register_get_contract :
    (∀ (tools : List (String × PyFunc)) (name : String) (func : PyFunc),
        (dictGet tools name).isSome = true →
        ToolRegistry.register tools name func false =
          .error ("Tool " ++ sq ++ name ++ sq ++
            " already registered. Use override=True to replace it.")) ∧
    (∀ (tools : List (String × PyFunc)) (name : String) (func : PyFunc)
        (override : Bool), func.callable = false →
        ∃ e, ToolRegistry.register tools name func override = .error e) ∧
    (∀ (tools : List (String × PyFunc)) (name : String) (func : PyFunc)
        (override : Bool),
        (dictGet tools name = none ∨ override = true) → func.callable = true →
        ToolRegistry.register tools name func override =
          .ok (dictInsert tools name func) ∧
        ToolRegistry.get (dictInsert tools name func) name = .ok func) ∧
    (∀ (tools : List (String × PyFunc)) (name : String),
        dictGet tools name = none →
        ∃ pre post : String,
          ToolRegistry.get tools name = .error (pre ++ "not found" ++ post)) := by
  refine ⟨?_, ?_, ?_, ?_⟩
  · intro tools name func h
    unfold ToolRegistry.register
    rw [if_pos (by simp [h])]
  · intro tools name func override h
    unfold ToolRegistry.register
    by_cases hd : ((dictGet tools name).isSome && !override) = true
    · rw [if_pos hd]
      exact ⟨_, rfl⟩
    · rw [if_neg hd, if_pos (by simp [h])]
      exact ⟨_, rfl⟩
  · intro tools name func override hv hc
    have hd : ¬(((dictGet tools name).isSome && !override) = true) := by
      rcases hv with hv | hv <;> simp [hv]
    refine ⟨?_, ?_⟩
    · unfold ToolRegistry.register
      rw [if_neg hd, if_neg (by simp [hc])]
    · unfold ToolRegistry.get
      rw [dictGet_dictInsert_self]
  · intro tools name h
    refine ⟨"Tool " ++ sq ++ name ++ sq ++ " ",
      ". Available tools: " ++ toString (tools.map Prod.fst), ?_⟩
    simp only [ToolRegistry.get, h]
    congr 1
    simp only [String.append_assoc]
    congr 1

/-- Claim C9 witness: the contract applied at a concrete registry. -/
theorem c9_registry_register_get_contract_witness :
    ToolRegistry.register [("f", ⟨true, 0⟩)] "f" ⟨true, 1⟩ false =
      .error ("Tool " ++ sq ++ "f" ++ sq ++
        " already registered. Use override=True to replace it.") ∧
    (∃ e, ToolRegistry.register [] "g" ⟨false, 2⟩ false = .error e) ∧
    (ToolRegistry.register [] "h" ⟨true, 3⟩ false =
        .ok (dictInsert [] "h" ⟨true, 3⟩) ∧
      ToolRegistry.get (dictInsert [] "h" ⟨true, 3⟩) "h" = .ok ⟨true, 3⟩) ∧
    (∃ pre post : String,
      ToolRegistry.get [] "missing" = .error (pre ++ "not found" ++ post)) :=
  ⟨c9_registry_register_get_contract.1 [("f", ⟨true, 0⟩)] "f" ⟨true, 1⟩ (by decide),
   c9_registry_register_get_contract.2.1 [] "g" ⟨false, 2⟩ false (by decide),
   c9_registry_register_get_contract.2.2.1 [] "h" ⟨true, 3⟩ false (Or.inl rfl) (by decide),
   c9_registry_register_get_contract.2.2.2 [] "missing" rfl⟩

/-- At the loop head, a reached iteration cap raises before anything else
in the body runs; the outer handler marks the run FAILED with the cap
message and stamps completed_at, leaving logs, state and counter
untouched. -/
theorem executeStep_cap (engine : GraphEngine)
    (nodeMap : List (String × NodeDefinition))
    (adjacencyMap : List (String × List EdgeDefinition))
    (maxIterations : Nat) (name : String) (visited : List String) (run : Run)
    (h : maxIterations ≤ run.iteration_count) :
    engine.executeStep nodeMap adjacencyMap maxIterations name visited run =
      .done (markFailed run (capMessage maxIterations)) := by
  unfold GraphEngine.executeStep
  rw [if_pos h]

/-- One loop pass never pushes the iteration counter past the cap: the
head check admits only counters strictly below it, and a pass increments
by at most one. -/
theorem executeStep_iteration_count_le (engine : GraphEngine)
    (nodeMap : List (String × NodeDefinition))
    (adjacencyMap : List (String × List EdgeDefinition))
    (maxIterations : Nat) (name : String) (visited : List String) (run : Run)
    (h : run.iteration_count ≤ maxIterations) :
    ((engine.executeStep nodeMap adjacencyMap maxIterations name visited
      run).run).iteration_count ≤ maxIterations := by
  by_cases hcap : maxIterations ≤ run.iteration_count
  · rw [executeStep_cap _ _ _ _ _ _ _ hcap]
    exact h
  · unfold GraphEngine.executeStep
    rw [if_neg hcap]
    cases hn : dictGet nodeMap name with
    | none => exact h
    | some node =>
      by_cases hs : ((engine.executeNode node run.current_state).1).success = true
      · simp only [hs, ite_true, StepResult.run]
        split <;> split
        all_goals
          first
          | exact (show run.iteration_count + 1 ≤ maxIterations by omega)
          | exact h
      · simp only [hs, ite_false, StepResult.run]
        exact h

/-- The whole loop never pushes the iteration counter past the cap. -/
theorem executeLoop_iteration_count_le (engine : GraphEngine)
    (nodeMap : List (String × NodeDefinition))
    (adjacencyMap : List (String × List EdgeDefinition)) (maxIterations : Nat) :
    ∀ (fuel : Nat) (cur : Option String) (visited : List String) (run : Run),
      run.iteration_count ≤ maxIterations →
      (engine.executeLoop nodeMap adjacencyMap maxIterations fuel cur visited
        run).iteration_count ≤ maxIterations := by
  intro fuel
  induction fuel with
  | zero => intro cur visited run h; exact h
  | succ f ih =>
    intro cur visited run h
    cases cur with
    | none => exact h
    | some name =>
      by_cases hname : name = ""
      · simp only [GraphEngine.executeLoop, hname, ite_true]
        exact h
      · simp only [GraphEngine.executeLoop, hname, ite_false]
        cases hstep : engine.executeStep nodeMap adjacencyMap maxIterations name visited run with
        | done r =>
          have hr := executeStep_iteration_count_le engine nodeMap adjacencyMap
            maxIterations name visited run h
          rw [hstep] at hr
          exact hr
        | next c v r =>
          have hr := executeStep_iteration_count_le engine nodeMap adjacencyMap
            maxIterations name visited run h
          rw [hstep] at hr
          exact ih c v r hr

/-- One loop pass never touches the metadata of the current state: every
state update rebuilds the WorkflowState with the previous metadata. -/
theorem executeStep_metadata (engine : GraphEngine)
    (nodeMap : List (String × NodeDefinition))
    (adjacencyMap : List (String × List EdgeDefinition))
    (maxIterations : Nat) (name : String) (visited : List String) (run : Run) :
    ((engine.executeStep nodeMap adjacencyMap maxIterations name visited
      run).run).current_state.metadata = run.current_state.metadata := by
  by_cases hcap : maxIterations ≤ run.iteration_count
  · rw [executeStep_cap _ _ _ _ _ _ _ hcap]
    rfl
  · unfold GraphEngine.executeStep
    rw [if_neg hcap]
    cases hn : dictGet nodeMap name with
    | none => rfl
    | some node =>
      by_cases hs : ((engine.executeNode node run.current_state).1).success = true
      · simp only [hs, ite_true, StepResult.run]
        split <;> split <;> rfl
      · simp only [hs, ite_false, StepResult.run]
        rfl

/-- The whole loop preserves the metadata of the current state. -/
theorem executeLoop_metadata (engine : GraphEngine)
    (nodeMap : List (String × NodeDefinition))
    (adjacencyMap : List (String × List EdgeDefinition)) (maxIterations : Nat) :
    ∀ (fuel : Nat) (cur : Option String) (visited : List String) (run : Run),
      (engine.executeLoop nodeMap adjacencyMap maxIterations fuel cur visited
        run).current_state.metadata = run.current_state.metadata := by
  intro fuel
  induction fuel with
  | zero => intro cur visited run; rfl
  | succ f ih =>
    intro cur visited run
    cases cur with
    | none => rfl
    | some name =>
      by_cases hname : name = ""
      · simp only [GraphEngine.executeLoop, hname, ite_true]
        rfl
      · simp only [GraphEngine.executeLoop, hname, ite_false]
        cases hstep : engine.executeStep nodeMap adjacencyMap maxIterations name visited run with
        | done r =>
          have hr := executeStep_metadata engine nodeMap adjacencyMap
            maxIterations name visited run
          rw [hstep] at hr
          exact hr
        | next c v r =>
          have hr := executeStep_metadata engine nodeMap adjacencyMap
            maxIterations name visited run
          rw [hstep] at hr
          exact (ih c v r).trans hr

/-- Claim C8: the metadata of the current state is {graph_name: graph.name}
at construction and every per-node state update preserves it, replacing
only the data field: one loop pass returns a run with unchanged metadata,
and every completed execution ends with the construction-time metadata. -/
theorem c8_metadata_frame :
    (∀ (engine : GraphEngine) (nodeMap : List (String × NodeDefinition))
        (adjacencyMap : List (String × List EdgeDefinition))
        (maxIterations : Nat) (name : String) (visited : List String) (run : Run),
        ((engine.executeStep nodeMap adjacencyMap maxIterations name visited
          run).run).current_state.metadata = run.current_state.metadata) ∧
    (∀ (engine : GraphEngine) (graph : GraphDefinition) (initialState : St)
        (maxIterations : Nat),
        (engine.execute graph initialState maxIterations).current_state.metadata
          = [("graph_name", Val.vStr graph.name)]) := by
  refine ⟨executeStep_metadata, ?_⟩
  intro engine graph initialState maxIterations
  simp only [GraphEngine.execute]
  rw [executeLoop_metadata]

/-- Claim C3: the iteration cap is strict: at a loop head whose counter has
reached the cap the engine halts before executing another node and the run
ends FAILED with the possible-infinite-loop message; the cap message indeed
mentions an infinite loop; the final counter of every execution is at most
the cap; and a continuing loop pass increments the counter exactly when the
chosen successor is already in the visited set. -/
theorem c3_iteration_cap_strict :
    (∀ (engine : GraphEngine) (nodeMap : List (String × NodeDefinition))
        (adjacencyMap : List (String × List EdgeDefinition))
        (maxIterations fuel : Nat) (name : String) (visited : List String)
        (run : Run), name ≠ "" → run.iteration_count = maxIterations →
        engine.executeLoop nodeMap adjacencyMap maxIterations (fuel + 1)
            (some name) visited run
          = markFailed run (capMessage maxIterations)) ∧
    (∀ maxIterations : Nat, ∃ pre post : String,
        capMessage maxIterations = pre ++ "infinite loop" ++ post) ∧
    (∀ (engine : GraphEngine) (graph : GraphDefinition) (initialState : St)
        (maxIterations : Nat),
        (engine.execute graph initialState maxIterations).iteration_count
          ≤ maxIterations) ∧
    (∀ (engine : GraphEngine) (nodeMap : List (String × NodeDefinition))
        (adjacencyMap : List (String × List EdgeDefinition))
        (maxIterations : Nat) (name : String) (visited : List String)
        (run : Run) (c : Option String) (v : List String) (r : Run),
        engine.executeStep nodeMap adjacencyMap maxIterations name visited run
            = StepResult.next c v r →
        r.iteration_count = run.iteration_count +
          (if nextTriggersIteration c v then 1 else 0)) := by
  refine ⟨?_, ?_, ?_, ?_⟩
  · intro engine nodeMap adjacencyMap maxIterations fuel name visited run hname hcount
    simp only [GraphEngine.executeLoop, hname, ite_false]
    rw [executeStep_cap _ _ _ _ _ _ _ (le_of_eq hcount.symm)]
  · intro maxIterations
    refine ⟨"Maximum iterations (" ++ toString maxIterations ++
      ") exceeded. Possible ", " detected.", ?_⟩
    unfold capMessage
    simp only [String.append_assoc]
    congr 1
  · intro engine graph initialState maxIterations
    simp only [GraphEngine.execute]
    exact executeLoop_iteration_count_le _ _ _ _ _ _ _ _ (Nat.zero_le maxIterations)
  · intro engine nodeMap adjacencyMap maxIterations name visited run c v r hstep
    unfold GraphEngine.executeStep at hstep
    by_cases hcap : maxIterations ≤ run.iteration_count
    · rw [if_pos hcap] at hstep
      exact StepResult.noConfusion hstep
    · rw [if_neg hcap] at hstep
      cases hn : dictGet nodeMap name with
      | none =>
        rw [hn] at hstep
        exact StepResult.noConfusion hstep
      | some node =>
        rw [hn] at hstep
        by_cases hs : ((engine.executeNode node run.current_state).1).success = true
        · simp only [hs, ite_true] at hstep
          injection hstep with h1 h2 h3
          subst h1
          subst h2
          subst h3
          by_cases ht : nextTriggersIteration
              (engine.getNextNode name adjacencyMap
                ((engine.executeNode node run.current_state).1).output_state)
              (if name ∈ visited then visited else visited ++ [name]) = true
          · simp [ht]
          · simp [ht]
        · simp only [hs, ite_false] at hstep
          exact StepResult.noConfusion hstep

/-- Claim C3 witness: the cap conjunct applied at a concrete loop head
whose counter equals the cap. -/
theorem c3_iteration_cap_strict_witness :
    c2Engine.executeLoop [] [] 3 1 (some "A") []
        { graph_id := "w", current_state := { data := [], metadata := [] },
          status := RunStatus.RUNNING, iteration_count := 3 }
      = markFailed
          { graph_id := "w", current_state := { data := [], metadata := [] },
            status := RunStatus.RUNNING, iteration_count := 3 }
          (capMessage 3) :=
  c3_iteration_cap_strict.1 c2Engine [] [] 3 0 "A" []
    { graph_id := "w", current_state := { data := [], metadata := [] },
      status := RunStatus.RUNNING, iteration_count := 3 }
    (by decide) rfl

/-- Every log emitted by `_execute_node` is internally consistent: it is
unsuccessful exactly when it carries an error text, and an unsuccessful
log returns the input snapshot as its output state. -/
theorem executeNode_log_consistent (engine : GraphEngine)
    (node : NodeDefinition) (state : WorkflowState) :
    ((((engine.executeNode node state).1).success = false ↔
        ((engine.executeNode node state).1).error ≠ none) ∧
      (((engine.executeNode node state).1).success = false →
        ((engine.executeNode node state).1).output_state
          = ((engine.executeNode node state).1).input_state)) := by
  unfold GraphEngine.executeNode
  cases node.node_type with
  | FUNCTION =>
    cases h : engine.executeFunctionNode node state.data with
    | mk post out => cases out <;> simp
  | CONDITIONAL => simp
  | START => simp
  | END => simp

/-- One loop pass preserves log consistency: the only log it appends comes
from `_execute_node`. -/
theorem executeStep_logs_consistent (engine : GraphEngine)
    (nodeMap : List (String × NodeDefinition))
    (adjacencyMap : List (String × List EdgeDefinition))
    (maxIterations : Nat) (name : String) (visited : List String) (run : Run)
    (hrun : ∀ l ∈ run.execution_logs,
      (l.success = false ↔ l.error ≠ none) ∧
      (l.success = false → l.output_state = l.input_state)) :
    ∀ l ∈ ((engine.executeStep nodeMap adjacencyMap maxIterations name visited
        run).run).execution_logs,
      (l.success = false ↔ l.error ≠ none) ∧
      (l.success = false → l.output_state = l.input_state) := by
  by_cases hcap : maxIterations ≤ run.iteration_count
  · rw [executeStep_cap _ _ _ _ _ _ _ hcap]
    exact hrun
  · unfold GraphEngine.executeStep
    rw [if_neg hcap]
    cases hn : dictGet nodeMap name with
    | none => exact hrun
    | some node =>
      by_cases hs : ((engine.executeNode node run.current_state).1).success = true
      · simp only [hs, ite_true, StepResult.run]
        split <;> split
        all_goals
          intro l hl
          rcases List.mem_append.mp hl with hl2 | hl2
          · exact hrun l hl2
          · rw [List.mem_singleton.mp hl2]
            exact executeNode_log_consistent engine node run.current_state
      · simp only [hs, ite_false, StepResult.run]
        intro l hl
        rcases List.mem_append.mp hl with hl2 | hl2
        · exact hrun l hl2
        · rw [List.mem_singleton.mp hl2]
          exact executeNode_log_consistent engine node run.current_state

/-- The whole loop preserves log consistency. -/
theorem executeLoop_logs_consistent (engine : GraphEngine)
    (nodeMap : List (String × NodeDefinition))
    (adjacencyMap : List (String × List EdgeDefinition)) (maxIterations : Nat) :
    ∀ (fuel : Nat) (cur : Option String) (visited : List String) (run : Run),
      (∀ l ∈ run.execution_logs,
        (l.success = false ↔ l.error ≠ none) ∧
        (l.success = false → l.output_state = l.input_state)) →
      ∀ l ∈ (engine.executeLoop nodeMap adjacencyMap maxIterations fuel cur
          visited run).execution_logs,
        (l.success = false ↔ l.error ≠ none) ∧
        (l.success = false → l.output_state = l.input_state) := by
  intro fuel
  induction fuel with
  | zero => intro cur visited run hrun; exact hrun
  | succ f ih =>
    intro cur visited run hrun
    cases cur with
    | none => exact hrun
    | some name =>
      by_cases hname : name = ""
      · simp only [GraphEngine.executeLoop, hname, ite_true]
        exact hrun
      · simp only [GraphEngine.executeLoop, hname, ite_false]
        cases hstep : engine.executeStep nodeMap adjacencyMap maxIterations name visited run with
        | done r =>
          have hr := executeStep_logs_consistent engine nodeMap adjacencyMap
            maxIterations name visited run hrun
          rw [hstep] at hr
          exact hr
        | next c v r =>
          have hr := executeStep_logs_consistent engine nodeMap adjacencyMap
            maxIterations name visited run hrun
          rw [hstep] at hr
          exact ih c v r hr

/-- Claim C6: for every log produced by the engine, success=false holds
exactly when the error field is non-null, and a failing log records an
output state equal to its input state. -/
theorem c6_log_success_error_consistency :
    ∀ (engine : GraphEngine) (graph : GraphDefinition) (initialState : St)
      (maxIterations : Nat) (log : ExecutionLog),
      log ∈ (engine.execute graph initialState maxIterations).execution_logs →
      ((log.success = false ↔ log.error ≠ none) ∧
        (log.success = false → log.output_state = log.input_state)) := by
  intro engine graph initialState maxIterations log hmem
  simp only [GraphEngine.execute] at hmem
  exact executeLoop_logs_consistent engine _ _ maxIterations _ _ _ _
    (by intro l hl; simp at hl) log hmem

/-- A tool that raises for the C6 witness scenario. -/
def c6Tool : Tool := { effect := id, ret := fun _ => .error "c6boom" }

/-- Engine for the C6 witness scenario. -/
def c6Engine : GraphEngine :=
  { tool_registry := [("c6boom", c6Tool)], pyEval := fun _ _ => .error "NameError" }

/-- Graph for the C6 witness scenario. -/
def c6Graph : GraphDefinition :=
  { graph_id := "g6", name := "G6",
    nodes := [{ name := "A", node_type := .FUNCTION, tool_name := some "c6boom" }],
    edges := [], entry_point := "A" }

/-- The failing log the C6 witness scenario produces. -/
def c6Log : ExecutionLog :=
  { node_name := "A", input_state := [], output_state := [],
    success := false, error := some "c6boom" }

/-- Claim C6 witness: the consistency property applied to a concrete log of
a concrete execution. -/
theorem c6_log_success_error_consistency_witness :
    ((c6Log.success = false ↔ c6Log.error ≠ none) ∧
      (c6Log.success = false → c6Log.output_state = c6Log.input_state)) :=
  c6_log_success_error_consistency c6Engine c6Graph [] 10 c6Log (by decide)

/-- A tool that mutates the payload dict in place and then raises, for the
C5 counterexample. -/
def c5MutatingTool : Tool :=
  { effect := fun _ => [("k", Val.vInt 99)], ret := fun _ => .error "boom" }

/-- Engine for the C5 counterexample. -/
def c5Engine : GraphEngine :=
  { tool_registry := [("mut", c5MutatingTool)],
    pyEval := fun _ _ => .error "NameError" }

/-- Graph for the C5 counterexample: one FUNCTION node dispatching the
mutating-and-raising tool. -/
def c5Graph : GraphDefinition :=
  { graph_id := "g5", name := "G5",
    nodes := [{ name := "A", node_type := .FUNCTION, tool_name := some "mut" }],
    edges := [], entry_point := "A" }

/-- Claim C5 counterexample: a tool mutates the payload dict in place and
then raises.  The log records success=false, but the run state is not
rolled back to the input snapshot: on failure the engine merely skips the
state update, so the current payload keeps the in-place mutation and
differs from the payload as it was before the node ran. -/
theorem c5_no_rollback_on_inplace_mutation :
    (c5Engine.execute c5Graph [("k", Val.vInt 1)] 10).execution_logs =
      [{ node_name := "A", input_state := [("k", Val.vInt 1)],
         output_state := [("k", Val.vInt 1)], success := false,
         error := some "boom" }] ∧
    (c5Engine.execute c5Graph [("k", Val.vInt 1)] 10).current_state.data
      = [("k", Val.vInt 99)] ∧
    ([("k", Val.vInt 99)] : St) ≠ [("k", Val.vInt 1)] := by
  decide

/-- When a node execution fails and no registered tool mutates payloads in
place, the payload object ends unchanged and the log carries the snapshot
in both of its state fields. -/
theorem executeNode_failure_unchanged (engine : GraphEngine)
    (node : NodeDefinition) (state : WorkflowState)
    (hid : ∀ n t, dictGet engine.tool_registry n = some t → ∀ s, t.effect s = s)
    (hfail : ((engine.executeNode node state).1).success = false) :
    (engine.executeNode node state).2 = state.data ∧
    ((engine.executeNode node state).1).input_state = state.data ∧
    ((engine.executeNode node state).1).output_state = state.data := by
  cases hnt : node.node_type with
  | FUNCTION =>
    cases hf : engine.executeFunctionNode node state.data with
    | mk post out =>
      cases out with
      | ok o => simp [GraphEngine.executeNode, hnt, hf] at hfail
      | error e =>
        refine ⟨?_, by simp [GraphEngine.executeNode, hnt, hf],
          by simp [GraphEngine.executeNode, hnt, hf]⟩
        simp only [GraphEngine.executeNode, hnt, hf]
        unfold GraphEngine.executeFunctionNode at hf
        split at hf
        · injection hf with h1 h2
          exact h1.symm
        · split at hf
          · injection hf with h1 h2
            exact h1.symm
          · split at hf
            · injection hf with h1 h2
              exact h1.symm
            · rename_i tool hreg
              injection hf with h1 h2
              rw [← h1]
              exact hid _ tool hreg state.data
  | CONDITIONAL => simp [GraphEngine.executeNode, hnt] at hfail
  | START => simp [GraphEngine.executeNode, hnt] at hfail
  | END => simp [GraphEngine.executeNode, hnt] at hfail

/-- A loop pass that ends the run after a failing log leaves the current
payload at the value the node left in the payload object, which — when no
tool mutates in place — is the input snapshot recorded in the log. -/
theorem executeStep_done_failure_rollback (engine : GraphEngine)
    (nodeMap : List (String × NodeDefinition))
    (adjacencyMap : List (String × List EdgeDefinition))
    (maxIterations : Nat) (name : String) (visited : List String) (run : Run)
    (hid : ∀ n t, dictGet engine.tool_registry n = some t → ∀ s, t.effect s = s)
    (hrun : ∀ l ∈ run.execution_logs, l.success = true) :
    ∀ r, engine.executeStep nodeMap adjacencyMap maxIterations name visited run
        = StepResult.done r →
      ∀ log, r.execution_logs.getLast? = some log → log.success = false →
        r.current_state.data = log.input_state ∧
        log.output_state = log.input_state := by
  intro r hstep log hlast hfail
  by_cases hcap : maxIterations ≤ run.iteration_count
  · rw [executeStep_cap _ _ _ _ _ _ _ hcap] at hstep
    injection hstep with h
    subst h
    have hsucc := hrun log (List.mem_of_mem_getLast? hlast)
    rw [hsucc] at hfail
    exact Bool.noConfusion hfail
  · unfold GraphEngine.executeStep at hstep
    rw [if_neg hcap] at hstep
    cases hn : dictGet nodeMap name with
    | none =>
      rw [hn] at hstep
      injection hstep with h
      subst h
      have hsucc := hrun log (List.mem_of_mem_getLast? hlast)
      rw [hsucc] at hfail
      exact Bool.noConfusion hfail
    | some node =>
      rw [hn] at hstep
      by_cases hs : ((engine.executeNode node run.current_state).1).success = true
      · simp only [hs, ite_true] at hstep
        exact StepResult.noConfusion hstep
      · simp only [hs, ite_false] at hstep
        injection hstep with h
        subst h
        rw [Bool.not_eq_true] at hs
        simp only [markCompleted] at hlast ⊢
        rw [List.getLast?_concat] at hlast
        injection hlast with h2
        subst h2
        obtain ⟨hpost, hin, hout⟩ :=
          executeNode_failure_unchanged engine node run.current_state hid hs
        exact ⟨hpost.trans hin.symm, hout.trans hin.symm⟩

/-- A loop pass that continues appends only a successful log. -/
theorem executeStep_next_logs_success (engine : GraphEngine)
    (nodeMap : List (String × NodeDefinition))
    (adjacencyMap : List (String × List EdgeDefinition))
    (maxIterations : Nat) (name : String) (visited : List String) (run : Run)
    (hrun : ∀ l ∈ run.execution_logs, l.success = true) :
    ∀ c v r, engine.executeStep nodeMap adjacencyMap maxIterations name visited
        run = StepResult.next c v r →
      ∀ l ∈ r.execution_logs, l.success = true := by
  intro c v r hstep
  unfold GraphEngine.executeStep at hstep
  by_cases hcap : maxIterations ≤ run.iteration_count
  · rw [if_pos hcap] at hstep
    exact StepResult.noConfusion hstep
  · rw [if_neg hcap] at hstep
    cases hn : dictGet nodeMap name with
    | none =>
      rw [hn] at hstep
      exact StepResult.noConfusion hstep
    | some node =>
      rw [hn] at hstep
      by_cases hs : ((engine.executeNode node run.current_state).1).success = true
      · simp only [hs, ite_true] at hstep
        injection hstep with h1 h2 h3
        have hlogs : r.execution_logs = run.execution_logs ++
            [(engine.executeNode node run.current_state).1] := by
          rw [← h3]
          split <;> split <;> rfl
        intro l hl
        rw [hlogs] at hl
        rcases List.mem_append.mp hl with hl2 | hl2
        · exact hrun l hl2
        · rw [List.mem_singleton.mp hl2]
          exact hs
      · simp only [hs, ite_false] at hstep
        exact StepResult.noConfusion hstep

/-- The loop-level rollback property: starting from all-successful logs,
when the final run ends with a failing log and no registered tool mutates
in place, the final payload equals the input snapshot of that log, which
also equals its output state. -/
theorem executeLoop_failure_rollback (engine : GraphEngine)
    (nodeMap : List (String × NodeDefinition))
    (adjacencyMap : List (String × List EdgeDefinition)) (maxIterations : Nat)
    (hid : ∀ n t, dictGet engine.tool_registry n = some t → ∀ s, t.effect s = s) :
    ∀ (fuel : Nat) (cur : Option String) (visited : List String) (run : Run),
      (∀ l ∈ run.execution_logs, l.success = true) →
      ∀ log, (engine.executeLoop nodeMap adjacencyMap maxIterations fuel cur
          visited run).execution_logs.getLast? = some log →
        log.success = false →
        (engine.executeLoop nodeMap adjacencyMap maxIterations fuel cur visited
            run).current_state.data = log.input_state ∧
        log.output_state = log.input_state := by
  intro fuel
  induction fuel with
  | zero =>
    intro cur visited run hrun log hlast hfail
    have hsucc := hrun log (List.mem_of_mem_getLast? hlast)
    rw [hsucc] at hfail
    exact Bool.noConfusion hfail
  | succ f ih =>
    intro cur visited run hrun log hlast hfail
    cases cur with
    | none =>
      have hsucc := hrun log (List.mem_of_mem_getLast? hlast)
      rw [hsucc] at hfail
      exact Bool.noConfusion hfail
    | some name =>
      by_cases hname : name = ""
      · simp only [GraphEngine.executeLoop, hname, ite_true] at hlast ⊢
        have hsucc := hrun log (List.mem_of_mem_getLast? hlast)
        rw [hsucc] at hfail
        exact Bool.noConfusion hfail
      · simp only [GraphEngine.executeLoop, hname, ite_false] at hlast ⊢
        cases hstep : engine.executeStep nodeMap adjacencyMap maxIterations name visited run with
        | done r =>
          rw [hstep] at hlast
          exact executeStep_done_failure_rollback engine nodeMap adjacencyMap
            maxIterations name visited run hid hrun r hstep log hlast hfail
        | next c v r =>
          rw [hstep] at hlast
          exact ih c v r
            (executeStep_next_logs_success engine nodeMap adjacencyMap
              maxIterations name visited run hrun c v r hstep)
            log hlast hfail

/-- Claim C5 as amended: a FUNCTION-node failure (tool exception, missing
tool_name, or unregistered tool) ends the run with a failing log whose
output state equals its input snapshot; the engine performs no rollback —
it merely skips the state update — so the final payload equals the value
the failed node left in the payload object, which coincides with the
pre-node payload exactly when no tool mutated it in place. -/
theorem c5_failure_rollback_amended :
    ∀ (engine : GraphEngine) (graph : GraphDefinition) (initialState : St)
      (maxIterations : Nat),
      (∀ n t, dictGet engine.tool_registry n = some t → ∀ s, t.effect s = s) →
      ∀ log, (engine.execute graph initialState
          maxIterations).execution_logs.getLast? = some log →
        log.success = false →
        (engine.execute graph initialState maxIterations).current_state.data
            = log.input_state ∧
        log.output_state = log.input_state := by
  intro engine graph initialState maxIterations hid log hlast hfail
  simp only [GraphEngine.execute] at hlast ⊢
  exact executeLoop_failure_rollback engine _ _ maxIterations hid _ _ _ _
    (by intro l hl; simp at hl) log hlast hfail

/-- A tool that raises without mutating, for the C5 amended witness. -/
def c5CleanTool : Tool := { effect := id, ret := fun _ => .error "boom" }

/-- Engine for the C5 amended witness: its only tool does not mutate. -/
def c5CleanEngine : GraphEngine :=
  { tool_registry := [("boom", c5CleanTool)],
    pyEval := fun _ _ => .error "NameError" }

/-- Graph for the C5 amended witness. -/
def c5CleanGraph : GraphDefinition :=
  { graph_id := "g5c", name := "G5C",
    nodes := [{ name := "A", node_type := .FUNCTION, tool_name := some "boom" }],
    edges := [], entry_point := "A" }

/-- The failing log of the C5 amended witness scenario. -/
def c5CleanLog : ExecutionLog :=
  { node_name := "A", input_state := [("k", Val.vInt 1)],
    output_state := [("k", Val.vInt 1)], success := false,
    error := some "boom" }

/-- Claim C5 amended witness: the rollback property applied at a concrete
non-mutating failing run. -/
theorem c5_failure_rollback_amended_witness :
    (c5CleanEngine.execute c5CleanGraph [("k", Val.vInt 1)] 10).current_state.data
        = c5CleanLog.input_state ∧
      c5CleanLog.output_state = c5CleanLog.input_state :=
  c5_failure_rollback_amended c5CleanEngine c5CleanGraph [("k", Val.vInt 1)] 10
    (by
      intro n t h st
      simp only [c5CleanEngine, dictGet] at h
      by_cases hn : ("boom" : String) = n
      · rw [if_pos hn] at h
        injection h with h2
        rw [← h2]
        rfl
      · rw [if_neg hn] at h
        exact Option.noConfusion h)
    c5CleanLog (by decide) rfl

end WorkflowEngine
